import Mathlib

set_option maxRecDepth 20000

/-!
Verification of the attachment-request wire codec and the per-request
bootstrap/dispatch handlers of the gotosocial service-weaver port.

Part 1 embeds the binary codec of `internal/api/model` (source file
`src/unnamed/part_002`): `AttachmentRequest.MarshalBinary`,
`AttachmentRequest.UnmarshalBinary`, `MarshalBinaryMultipart`,
`UnmarshalBinaryMultipart`, `writeString`, `readString`, `headerToString`
and `stringToHeader`.

Conventions of the embedding:
- Go byte slices and strings are `List Nat` (each entry a byte value).
- `int64` values are `Int`; the little-endian wire form of an int64 is
  `encInt64`, which writes the 8 bytes of the value mod 2 ^ 64.
- A `bytes.Reader` is the list of its remaining (unread) bytes.
- Go's `textproto.MIMEHeader` (a map from key to value list) is an
  association list kept in the map's iteration order; the iteration
  order of a Go map is not fixed, which is modelled by quantifying over
  permutations of the association list.
- Fallible Go functions return `Except`; a Go runtime panic that a call
  can trigger (`make` with a negative length) is modelled as the
  distinguished error `CodecErr.makeSliceRange`.
-/

/-- Go `textproto.MIMEHeader`: association list from key to the list of
values of that key, in map iteration order. -/
abbrev MIMEHeader := List (List Nat × List (List Nat))

/-- Go `multipart.FileHeader` (the fields the codec touches): exported
`Filename`, `Header` and `Size`, plus the unexported raw `content` bytes of
the uploaded file. The zero value `multipart.FileHeader{}` is
`⟨[], [], 0, []⟩`. -/
structure FileHeader where
  Filename : List Nat
  Header : MIMEHeader
  Size : Int
  content : List Nat
deriving DecidableEq

/-- Go `apimodel.AttachmentRequest`: optional file plus description and
focus strings (`src/unnamed/part_002`, lines 35-45). -/
structure AttachmentRequest where
  File : Option FileHeader
  Description : List Nat
  Focus : List Nat
deriving DecidableEq

/-- Errors the decoder can produce: `io.EOF`, `io.ErrUnexpectedEOF`
(from `binary.Read` / `io.ReadFull`), and the runtime panic raised by
`make([]byte, n)` with negative `n`. -/
inductive CodecErr
  | eof
  | unexpectedEOF
  | makeSliceRange
deriving DecidableEq

deriving instance DecidableEq for Except

/-- The two's-complement bit pattern of an int64, as a natural number
below 2 ^ 64. -/
def int64Wrap (n : Int) : Nat := (n % (2 ^ 64 : Int)).toNat

/-- Little-endian byte decomposition: `k` bytes of `u`. -/
def leBytes : Nat → Nat → List Nat
  | 0, _ => []
  | k + 1, u => u % 256 :: leBytes k (u / 256)

/-- Wire form of an int64 written by `binary.Write(buf, binary.LittleEndian, n)`:
the 8 little-endian bytes of its bit pattern. -/
def encInt64 (n : Int) : List Nat := leBytes 8 (int64Wrap n)

/-- Value of a little-endian byte list. -/
def leVal : List Nat → Nat
  | [] => 0
  | b :: bs => b + 256 * leVal bs

/-- Int64 read by `binary.Read(buf, binary.LittleEndian, &x)` from 8 bytes:
two's-complement interpretation of the little-endian value. -/
def decInt64 (bs : List Nat) : Int :=
  if leVal bs < 2 ^ 63 then (leVal bs : Int) else (leVal bs : Int) - 2 ^ 64

/-- Go `binary.Read(buf, binary.LittleEndian, &x)` for an `int64` on a
`bytes.Reader`: `io.ReadFull` semantics — `io.EOF` when no byte remains,
`io.ErrUnexpectedEOF` when fewer than 8 remain, else consume 8 bytes. -/
def readInt64 (r : List Nat) : Except CodecErr (Int × List Nat) :=
  if r.length < 8 then
    .error (if r.length = 0 then .eof else .unexpectedEOF)
  else .ok (decInt64 (r.take 8), r.drop 8)

/-- Go pattern `b := make([]byte, n); if _, err := buf.Read(b); err != nil`
on a `bytes.Reader`: `Read` returns `io.EOF` only when the reader is
already exhausted; otherwise it copies `min n remaining` bytes into the
zero-initialised slice and reports no error, so a short read leaves the
tail of `b` zero-padded. -/
def readFromOrPad (n : Nat) (r : List Nat) : Except CodecErr (List Nat × List Nat) :=
  if r.length = 0 then .error .eof
  else .ok (r.take n ++ List.replicate (n - r.length) 0, r.drop n)

/-- Go `make([]byte, len)` followed by `buf.Read`: `make` panics when
`len` is negative. -/
def readN (len : Int) (r : List Nat) : Except CodecErr (List Nat × List Nat) :=
  if len < 0 then .error .makeSliceRange
  else readFromOrPad len.toNat r

/-- Go helper `writeString` (`src/unnamed/part_002`, lines 125-133): length
prefix as int64 followed by the raw bytes. Writes to a `bytes.Buffer`
cannot fail, so the result is pure. -/
def writeString (s : List Nat) : List Nat := encInt64 (s.length : Int) ++ s

/-- Go helper `readString` (`src/unnamed/part_002`, lines 136-146): read
an int64 length prefix, then read that many bytes. -/
def readString (r : List Nat) : Except CodecErr (List Nat × List Nat) :=
  match readInt64 r with
  | .error e => .error e
  | .ok (strLen, r1) =>
    match readN strLen r1 with
    | .error e => .error e
    | .ok (s, r2) => .ok (s, r2)

/-- Go `textproto.validHeaderFieldByte`: letters, digits and the token
characters of RFC 7230. -/
def validHeaderFieldByte (c : Nat) : Bool :=
  decide ((97 ≤ c ∧ c ≤ 122) ∨ (65 ≤ c ∧ c ≤ 90) ∨ (48 ≤ c ∧ c ≤ 57) ∨
    c ∈ [33, 35, 36, 37, 38, 39, 42, 43, 45, 46, 94, 95, 96, 124, 126])

/-- Case normalisation pass of `textproto.canonicalMIMEHeaderKey`: upper
case at the start and after each hyphen, lower case elsewhere. -/
def canonCase : Bool → List Nat → List Nat
  | _, [] => []
  | upper, c :: rest =>
    let c2 := if upper then (if 97 ≤ c ∧ c ≤ 122 then c - 32 else c)
      else (if 65 ≤ c ∧ c ≤ 90 then c + 32 else c)
    c2 :: canonCase (decide (c2 = 45)) rest

/-- Go `textproto.CanonicalMIMEHeaderKey`: canonicalise the case when
every byte is a valid header field byte, otherwise return the key
unchanged. -/
def CanonicalMIMEHeaderKey (s : List Nat) : List Nat :=
  if s.all validHeaderFieldByte then canonCase true s else s

/-- Go `textproto.MIMEHeader.Add`: canonicalise the key, then append the
value to the key's value list (map semantics on the association list). -/
def MIMEHeader.Add (h : MIMEHeader) (key v : List Nat) : MIMEHeader :=
  let k := CanonicalMIMEHeaderKey key
  if h.any (fun kv => decide (kv.1 = k)) then
    h.map (fun kv => if kv.1 = k then (kv.1, kv.2 ++ [v]) else kv)
  else h ++ [(k, [v])]

/-- Go helper `headerToString` (`src/unnamed/part_002`, lines 205-213):
one `"key: value\n"` line per header value, keys in iteration order of the
association list. 58, 32, 10 are the bytes of the colon, the space and the
newline. -/
def headerToString (h : MIMEHeader) : List Nat :=
  (h.map (fun kv => (kv.2.map (fun v => kv.1 ++ 58 :: 32 :: (v ++ [10]))).flatten)).flatten

/-- Go `strings.SplitN(line, ": ", 2)` restricted to the found case:
locate the first occurrence of `": "` and split around it. -/
def findSep : List Nat → Option (List Nat × List Nat)
  | [] => none
  | c :: rest =>
    if c = 58 ∧ rest.head? = some 32 then some ([], rest.tail)
    else
      match findSep rest with
      | some p => some (c :: p.1, p.2)
      | none => none

/-- Go `strings.Split(s, "\n")` for the single-byte separator 10. -/
def splitNl : List Nat → List (List Nat)
  | [] => [[]]
  | c :: rest =>
    if c = 10 then [] :: splitNl rest
    else
      match splitNl rest with
      | [] => [[c]]
      | h :: t => (c :: h) :: t

/-- One loop iteration of `stringToHeader`: skip empty lines, split on the
first `": "`, drop lines without the separator, otherwise `Add`. -/
def lineStep (h : MIMEHeader) (line : List Nat) : MIMEHeader :=
  if line = [] then h
  else
    match findSep line with
    | some p => MIMEHeader.Add h p.1 p.2
    | none => h

/-- Go helper `stringToHeader` (`src/unnamed/part_002`, lines 216-229). -/
def stringToHeader (s : List Nat) : MIMEHeader :=
  (splitNl s).foldl lineStep []

/-- Go `MarshalBinaryMultipart` (`src/unnamed/part_002`, lines 149-172):
filename length, filename, header-dump length, header dump. Only
`Filename` and `Header` are written; `Size` and the raw content bytes are
not part of the wire form. Buffer writes cannot fail. -/
def MarshalBinaryMultipart (fh : FileHeader) : List Nat :=
  encInt64 (fh.Filename.length : Int) ++ fh.Filename ++
    encInt64 ((headerToString fh.Header).length : Int) ++ headerToString fh.Header

/-- Go `UnmarshalBinaryMultipart` (`src/unnamed/part_002`, lines 175-202):
read filename and header dump from a fresh `bytes.Reader`; the remaining
fields keep the `multipart.FileHeader{}` zero value. -/
def UnmarshalBinaryMultipart (data : List Nat) : Except CodecErr FileHeader :=
  match readInt64 data with
  | .error e => .error e
  | .ok (filenameLen, r1) =>
    match readN filenameLen r1 with
    | .error e => .error e
    | .ok (filename, r2) =>
      match readInt64 r2 with
      | .error e => .error e
      | .ok (headerLen, r3) =>
        match readN headerLen r3 with
        | .error e => .error e
        | .ok (headerBytes, _r4) =>
          .ok ⟨filename, stringToHeader headerBytes, 0, []⟩

/-- Go `AttachmentRequest.MarshalBinary` (`src/unnamed/part_002`, lines
48-82): file sub-record with int64 length prefix, or the sentinel -1 when
`File` is nil, followed by the length-prefixed description and focus. -/
def AttachmentRequest.MarshalBinary (ar : AttachmentRequest) : List Nat :=
  (match ar.File with
   | some fh =>
     encInt64 ((MarshalBinaryMultipart fh).length : Int) ++ MarshalBinaryMultipart fh
   | none => encInt64 (-1)) ++
    writeString ar.Description ++ writeString ar.Focus

/-- Go `AttachmentRequest.UnmarshalBinary` (`src/unnamed/part_002`, lines
85-122). The Go method mutates its receiver and returns only an error;
the embedding returns the decoded value in the success case. -/
def AttachmentRequest.UnmarshalBinary (data : List Nat) :
    Except CodecErr AttachmentRequest :=
  match readInt64 data with
  | .error e => .error e
  | .ok (fileDataLen, r1) =>
    if fileDataLen ≠ -1 then
      match readN fileDataLen r1 with
      | .error e => .error e
      | .ok (fileData, r2) =>
        match UnmarshalBinaryMultipart fileData with
        | .error e => .error e
        | .ok file =>
          match readString r2 with
          | .error e => .error e
          | .ok (description, r3) =>
            match readString r3 with
            | .error e => .error e
            | .ok (focus, _r4) => .ok ⟨some file, description, focus⟩
    else
      match readString r1 with
      | .error e => .error e
      | .ok (description, r3) =>
        match readString r3 with
        | .error e => .error e
        | .ok (focus, _r4) => .ok ⟨none, description, focus⟩

/-- Byte list of a Lean string literal (ASCII contents only). -/
def strBytes (s : String) : List Nat := s.data.map Char.toNat

/-!
Part 2: the three entry points of the weaver port
(`statusRequestHandler.DoOperation` in `src/unnamed/part_000`,
`mediaRequestHandler.DoOperation` and `mediaRequestHandler.Create` in
`src/unnamed/part_001`).

Each handler is a straight-line Go function with side effects; the
embedding makes the effects explicit:
- `Env` supplies the outcome of every external call the handler makes
  (database open, instance-record upserts, storage open, the business
  call results) together with the token sampled by
  `typeutils.RandStringRunes(5)`.
- A handler returns its Go results (result pointer, error) paired with
  the ordered trace of effect events, including the `defer`red stops,
  which Go runs on every return path in last-in-first-out order.
The `Event.dbClose` event is in the vocabulary so that the absence of a
database teardown is expressible; no handler ever emits it, because the
source never closes the database service it opens. The infallible calls
with no observable effect on the claims (`httpclient.New`, converter and
processor construction, the debug print) carry no event.
-/

/-- Observable effects of one handler invocation, in program order. -/
inductive Event
  | cachesInit
  | cachesStart
  | cachesStop
  | dbOpen
  | dbClose
  | createInstanceAccount
  | createInstanceInstance
  | storageOpen (lockName : List Nat)
  | workersStart
  | workersStop
  | addRecurring (id : List Nat) (start : Int) (period : Int) (sweepThreshold : Nat)
  | statusCreateCall
  | mediaCreateCall
  | mediaUpdateCall
  | mediaGetCall
deriving DecidableEq

/-- Errors a handler can return: each bootstrap stage failure wraps the
inner error with its `fmt.Errorf` stage message, and the media switch
has its own `"invalid media operation"` error. -/
inductive HandlerErr
  | dbService (inner : Nat)
  | instanceAccount (inner : Nat)
  | instanceInstance (inner : Nat)
  | storageBackend (inner : Nat)
  | invalidMediaOperation
deriving DecidableEq

/-- Outcomes of the external calls of one invocation: `some e` means the
call fails with inner error `e`. Business-call results are pairs
(result pointer, error), both optional, as returned by the processor. -/
structure Env where
  dbOpenErr : Option Nat
  instanceAccountErr : Option Nat
  instanceInstanceErr : Option Nat
  storageErr : Option Nat
  token : List Nat
  statusCreateResult : Option Nat × Option Nat
  mediaCreateResult : Option Nat × Option Nat
  mediaUpdateResult : Option Nat × Option Nat
  mediaGetResult : Option Nat × Option Nat
deriving DecidableEq

/-- Bytes of the `".lock"` suffix appended to the random token. -/
def lockSuffix : List Nat := strBytes ".lock"

/-- Bytes of the fixed `"hello.lock"` name used by `mediaRequestHandler.Create`. -/
def helloLock : List Nat := strBytes "hello.lock"

/-- Bytes of the reserved scheduler task id `"@cachesweep"`. -/
def cachesweepId : List Nat := strBytes "@cachesweep"

/-- Go `time.Minute` in nanoseconds. -/
def minuteNs : Int := 60000000000

/-- Go `CREATE_MEDIA MediaRequestOperation = 0` (`src/unnamed/part_001`). -/
def CREATE_MEDIA : Int := 0

/-- Go `UPDATE_MEDIA MediaRequestOperation = 1`. -/
def UPDATE_MEDIA : Int := 1

/-- Go `GET_MEDIA MediaRequestOperation = 2`. -/
def GET_MEDIA : Int := 2

/-- All four bootstrap stages that can fail succeed in `env`. -/
def bootstrapOk (env : Env) : Prop :=
  env.dbOpenErr = none ∧ env.instanceAccountErr = none ∧
    env.instanceInstanceErr = none ∧ env.storageErr = none

instance (env : Env) : Decidable (bootstrapOk env) := by
  unfold bootstrapOk; infer_instance

/-- Go `statusRequestHandler.DoOperation` (`src/unnamed/part_000`, lines
44-151): cache init and start (stop deferred), database open, instance
account and instance record upserts, storage open under
`RandStringRunes(5) + ".lock"`, worker start (stop deferred), the
`"@cachesweep"` recurring task (zero start time, one minute period,
callback `state.Caches.Sweep(60)` modelled by its parameters), then the
business call `processor.Status().Create` whose error is discarded by
`apiStatus, _ :=`, so the handler returns a nil error on that path. -/
def statusDoOperation (env : Env) : (Option Nat × Option HandlerErr) × List Event :=
  let t1 := [Event.cachesInit, Event.cachesStart]
  match env.dbOpenErr with
  | some e => ((none, some (HandlerErr.dbService e)), t1 ++ [Event.dbOpen, Event.cachesStop])
  | none =>
    let t2 := t1 ++ [Event.dbOpen]
    match env.instanceAccountErr with
    | some e =>
      ((none, some (HandlerErr.instanceAccount e)),
        t2 ++ [Event.createInstanceAccount, Event.cachesStop])
    | none =>
      let t3 := t2 ++ [Event.createInstanceAccount]
      match env.instanceInstanceErr with
      | some e =>
        ((none, some (HandlerErr.instanceInstance e)),
          t3 ++ [Event.createInstanceInstance, Event.cachesStop])
      | none =>
        let t4 := t3 ++ [Event.createInstanceInstance]
        match env.storageErr with
        | some e =>
          ((none, some (HandlerErr.storageBackend e)),
            t4 ++ [Event.storageOpen (env.token ++ lockSuffix), Event.cachesStop])
        | none =>
          ((env.statusCreateResult.1, none),
            t4 ++ [Event.storageOpen (env.token ++ lockSuffix), Event.workersStart,
              Event.addRecurring cachesweepId 0 minuteNs 60, Event.statusCreateCall,
              Event.workersStop, Event.cachesStop])

/-- Go `mediaRequestHandler.DoOperation` (`src/unnamed/part_001`, lines
34-103): same bootstrap as the status handler, then a switch on `op`;
the three processor calls discard their error (`apiAttachment, _ =`),
and the default branch returns the `"invalid media operation"` error. -/
def mediaDoOperation (env : Env) (op : Int) : (Option Nat × Option HandlerErr) × List Event :=
  let t1 := [Event.cachesInit, Event.cachesStart]
  match env.dbOpenErr with
  | some e => ((none, some (HandlerErr.dbService e)), t1 ++ [Event.dbOpen, Event.cachesStop])
  | none =>
    let t2 := t1 ++ [Event.dbOpen]
    match env.instanceAccountErr with
    | some e =>
      ((none, some (HandlerErr.instanceAccount e)),
        t2 ++ [Event.createInstanceAccount, Event.cachesStop])
    | none =>
      let t3 := t2 ++ [Event.createInstanceAccount]
      match env.instanceInstanceErr with
      | some e =>
        ((none, some (HandlerErr.instanceInstance e)),
          t3 ++ [Event.createInstanceInstance, Event.cachesStop])
      | none =>
        let t4 := t3 ++ [Event.createInstanceInstance]
        match env.storageErr with
        | some e =>
          ((none, some (HandlerErr.storageBackend e)),
            t4 ++ [Event.storageOpen (env.token ++ lockSuffix), Event.cachesStop])
        | none =>
          let t5 := t4 ++ [Event.storageOpen (env.token ++ lockSuffix), Event.workersStart,
            Event.addRecurring cachesweepId 0 minuteNs 60]
          if op = CREATE_MEDIA then
            ((env.mediaCreateResult.1, none),
              t5 ++ [Event.mediaCreateCall, Event.workersStop, Event.cachesStop])
          else if op = UPDATE_MEDIA then
            ((env.mediaUpdateResult.1, none),
              t5 ++ [Event.mediaUpdateCall, Event.workersStop, Event.cachesStop])
          else if op = GET_MEDIA then
            ((env.mediaGetResult.1, none),
              t5 ++ [Event.mediaGetCall, Event.workersStop, Event.cachesStop])
          else
            ((none, some HandlerErr.invalidMediaOperation),
              t5 ++ [Event.workersStop, Event.cachesStop])

/-- Go `mediaRequestHandler.Create` (`src/unnamed/part_001`, lines
160-218): same bootstrap, but the storage backend is opened under the
fixed name `"hello.lock"` instead of a random token; the business call is
`processor.Media().Create`, its error again discarded. -/
def mediaCreate (env : Env) : (Option Nat × Option HandlerErr) × List Event :=
  let t1 := [Event.cachesInit, Event.cachesStart]
  match env.dbOpenErr with
  | some e => ((none, some (HandlerErr.dbService e)), t1 ++ [Event.dbOpen, Event.cachesStop])
  | none =>
    let t2 := t1 ++ [Event.dbOpen]
    match env.instanceAccountErr with
    | some e =>
      ((none, some (HandlerErr.instanceAccount e)),
        t2 ++ [Event.createInstanceAccount, Event.cachesStop])
    | none =>
      let t3 := t2 ++ [Event.createInstanceAccount]
      match env.instanceInstanceErr with
      | some e =>
        ((none, some (HandlerErr.instanceInstance e)),
          t3 ++ [Event.createInstanceInstance, Event.cachesStop])
      | none =>
        let t4 := t3 ++ [Event.createInstanceInstance]
        match env.storageErr with
        | some e =>
          ((none, some (HandlerErr.storageBackend e)),
            t4 ++ [Event.storageOpen helloLock, Event.cachesStop])
        | none =>
          ((env.mediaCreateResult.1, none),
            t4 ++ [Event.storageOpen helloLock, Event.workersStart,
              Event.addRecurring cachesweepId 0 minuteNs 60, Event.mediaCreateCall,
              Event.workersStop, Event.cachesStop])

/-- Lock-file names passed to `gtsstorage.AutoConfig` in a trace. -/
def storageLocks (tr : List Event) : List (List Nat) :=
  tr.filterMap (fun ev =>
    match ev with
    | Event.storageOpen n => some n
    | _ => none)

/-- Recurring-task registrations in a trace: (id, start, period, sweep
threshold). -/
def recurringRegs (tr : List Event) : List (List Nat × Int × Int × Nat) :=
  tr.filterMap (fun ev =>
    match ev with
    | Event.addRecurring i s p th => some (i, s, p, th)
    | _ => none)

/-- Business-logic processor invocations in a trace. -/
def processorCalls (tr : List Event) : List Event :=
  tr.filter (fun ev =>
    match ev with
    | Event.statusCreateCall => true
    | Event.mediaCreateCall => true
    | Event.mediaUpdateCall => true
    | Event.mediaGetCall => true
    | _ => false)

/-!
Claim theorems about the entry points.
-/

/-- Environment in which every bootstrap stage succeeds and each business
call returns a result pointer and no error. -/
def okEnv : Env :=
  ⟨none, none, none, none, strBytes "abcde",
    (some 1, none), (some 2, none), (some 3, none), (some 4, none)⟩

/-- Environment with a successful bootstrap in which the business calls
of the status handler and of the media create handler fail with inner
error 7 while returning no result. -/
def c3Env : Env :=
  ⟨none, none, none, none, strBytes "abcde",
    (none, some 7), (none, some 7), (none, none), (none, none)⟩

/-- C3 counterexample: with a successful bootstrap, the business calls of
`statusRequestHandler.DoOperation` and `mediaRequestHandler.Create` fail
(inner error 7, nil result), yet both entry points return a nil error —
the `_` in `apiStatus, _ :=` / `apiAttachment, _ :=` discards the error. -/
theorem c3_counterexample :
    c3Env.statusCreateResult.2 = some 7 ∧
      (statusDoOperation c3Env).1 = (none, none) ∧
      c3Env.mediaCreateResult.2 = some 7 ∧
      (mediaCreate c3Env).1 = (none, none) := by decide

/-- C3 amended: a failure of any bootstrap stage surfaces as a non-nil
error of the entry point (the error result is nil exactly when every
bootstrap stage succeeded — and, for the media operation switch, the op
is one of the three valid operations); but the error of the underlying
business-logic call is discarded, so on every successful bootstrap the
entry point returns a nil error regardless of the business call's
outcome. -/
theorem c3_error_surfacing_amended (env : Env) (op : Int) :
    ((statusDoOperation env).1.2 = none ↔ bootstrapOk env) ∧
      ((mediaCreate env).1.2 = none ↔ bootstrapOk env) ∧
      ((mediaDoOperation env op).1.2 = none ↔
        (bootstrapOk env ∧ (op = CREATE_MEDIA ∨ op = UPDATE_MEDIA ∨ op = GET_MEDIA))) ∧
      (bootstrapOk env → (statusDoOperation env).1 = (env.statusCreateResult.1, none)) ∧
      (bootstrapOk env → (mediaCreate env).1 = (env.mediaCreateResult.1, none)) := by
  obtain ⟨d, ia, ii, st, tok, sc, mc, mu, mg⟩ := env
  cases d <;> cases ia <;> cases ii <;> cases st <;>
    by_cases h0 : op = CREATE_MEDIA <;> by_cases h1 : op = UPDATE_MEDIA <;>
      by_cases h2 : op = GET_MEDIA <;>
    simp_all [statusDoOperation, mediaCreate, mediaDoOperation, bootstrapOk,
      CREATE_MEDIA, UPDATE_MEDIA, GET_MEDIA]

/-- Environment whose sampled random token is `"world"`. -/
def c4Env : Env :=
  ⟨none, none, none, none, strBytes "world",
    (some 1, none), (some 2, none), (some 3, none), (some 4, none)⟩

/-- C4 counterexample: with the freshly sampled 5-character token
`"world"`, `mediaRequestHandler.Create` still opens the storage backend
under the fixed name `"hello.lock"`, which is not the sampled token
followed by `".lock"` — the entry point uses a fixed lock-file name. -/
theorem c4_counterexample :
    storageLocks (mediaCreate c4Env).2 = [helloLock] ∧
      helloLock ≠ c4Env.token ++ lockSuffix := by decide

/-- C4 amended: `statusRequestHandler.DoOperation` and
`mediaRequestHandler.DoOperation` open the storage backend under the
freshly sampled token followed by `".lock"`, but
`mediaRequestHandler.Create` uses the fixed name `"hello.lock"`; in each
handler the storage open is attempted exactly when the three prior
bootstrap stages succeeded. -/
theorem c4_lock_names_amended (env : Env) (op : Int) :
    storageLocks (statusDoOperation env).2 =
        (if env.dbOpenErr = none ∧ env.instanceAccountErr = none ∧
            env.instanceInstanceErr = none
          then [env.token ++ lockSuffix] else []) ∧
      storageLocks (mediaDoOperation env op).2 =
        (if env.dbOpenErr = none ∧ env.instanceAccountErr = none ∧
            env.instanceInstanceErr = none
          then [env.token ++ lockSuffix] else []) ∧
      storageLocks (mediaCreate env).2 =
        (if env.dbOpenErr = none ∧ env.instanceAccountErr = none ∧
            env.instanceInstanceErr = none
          then [helloLock] else []) := by
  obtain ⟨d, ia, ii, st, tok, sc, mc, mu, mg⟩ := env
  cases d <;> cases ia <;> cases ii <;> cases st <;>
    by_cases h0 : op = CREATE_MEDIA <;> by_cases h1 : op = UPDATE_MEDIA <;>
      by_cases h2 : op = GET_MEDIA <;>
    simp_all [statusDoOperation, mediaCreate, mediaDoOperation, storageLocks,
      CREATE_MEDIA, UPDATE_MEDIA, GET_MEDIA]

/-- Environment in which the storage-open stage fails with inner error 5
after cache start and database open succeeded. -/
def c6Env : Env :=
  ⟨none, none, none, some 5, strBytes "abcde",
    (none, none), (none, none), (none, none), (none, none)⟩

/-- C6 counterexample: when storage-open fails after the database was
opened, the entry point returns the storage error with the cache stopped,
but the database handle opened by the earlier stage is never closed — no
`dbClose` happens before the return, contradicting the claim that every
earlier resource has been torn down. -/
theorem c6_counterexample :
    (statusDoOperation c6Env).1.2 = some (HandlerErr.storageBackend 5) ∧
      Event.dbOpen ∈ (statusDoOperation c6Env).2 ∧
      Event.dbClose ∉ (statusDoOperation c6Env).2 := by decide

/-- C6 amended: when the storage-open stage fails in any of the three
entry points (`statusRequestHandler.DoOperation`,
`mediaRequestHandler.DoOperation` with any op — the failure precedes the
op switch — and `mediaRequestHandler.Create`), the deferred cache stop
has run by the time the entry point returns (it is the final event of
the trace), but the database handle from the earlier stage is not
closed — the handlers never close the database service; the worker pool
was not yet started on this path, so live resources are released in
reverse order of construction except for the leaked database handle. -/
theorem c6_teardown_amended (env : Env) (op : Int) (e : Nat)
    (h1 : env.dbOpenErr = none) (h2 : env.instanceAccountErr = none)
    (h3 : env.instanceInstanceErr = none) (h4 : env.storageErr = some e) :
    (statusDoOperation env).2 =
        [Event.cachesInit, Event.cachesStart, Event.dbOpen,
          Event.createInstanceAccount, Event.createInstanceInstance,
          Event.storageOpen (env.token ++ lockSuffix), Event.cachesStop] ∧
      Event.dbClose ∉ (statusDoOperation env).2 ∧
      (mediaDoOperation env op).2 =
        [Event.cachesInit, Event.cachesStart, Event.dbOpen,
          Event.createInstanceAccount, Event.createInstanceInstance,
          Event.storageOpen (env.token ++ lockSuffix), Event.cachesStop] ∧
      Event.dbClose ∉ (mediaDoOperation env op).2 ∧
      (mediaCreate env).2 =
        [Event.cachesInit, Event.cachesStart, Event.dbOpen,
          Event.createInstanceAccount, Event.createInstanceInstance,
          Event.storageOpen helloLock, Event.cachesStop] ∧
      Event.dbClose ∉ (mediaCreate env).2 := by
  obtain ⟨d, ia, ii, st, tok, sc, mc, mu, mg⟩ := env
  simp only at h1 h2 h3 h4
  subst h1; subst h2; subst h3; subst h4
  refine ⟨rfl, ?_, rfl, ?_, rfl, ?_⟩ <;>
    simp [statusDoOperation, mediaDoOperation, mediaCreate]

/-- C6 amended, witnessed at the concrete environment `c6Env` with the
create op. -/
theorem c6_teardown_amended_witness :
    (statusDoOperation c6Env).2 =
        [Event.cachesInit, Event.cachesStart, Event.dbOpen,
          Event.createInstanceAccount, Event.createInstanceInstance,
          Event.storageOpen (c6Env.token ++ lockSuffix), Event.cachesStop] ∧
      Event.dbClose ∉ (statusDoOperation c6Env).2 ∧
      (mediaDoOperation c6Env 0).2 =
        [Event.cachesInit, Event.cachesStart, Event.dbOpen,
          Event.createInstanceAccount, Event.createInstanceInstance,
          Event.storageOpen (c6Env.token ++ lockSuffix), Event.cachesStop] ∧
      Event.dbClose ∉ (mediaDoOperation c6Env 0).2 ∧
      (mediaCreate c6Env).2 =
        [Event.cachesInit, Event.cachesStart, Event.dbOpen,
          Event.createInstanceAccount, Event.createInstanceInstance,
          Event.storageOpen helloLock, Event.cachesStop] ∧
      Event.dbClose ∉ (mediaCreate c6Env).2 :=
  c6_teardown_amended c6Env 0 5 rfl rfl rfl rfl

/-- C7: on every invocation whose bootstrap succeeds, each of the three
entry points registers exactly one recurring scheduler task: id
`"@cachesweep"`, zero-value start time, a period of one minute, and a
callback that sweeps the invocation's cache with threshold 60. -/
theorem c7_cachesweep_registration (env : Env) (op : Int) (h : bootstrapOk env) :
    recurringRegs (statusDoOperation env).2 = [(cachesweepId, 0, minuteNs, 60)] ∧
      recurringRegs (mediaDoOperation env op).2 = [(cachesweepId, 0, minuteNs, 60)] ∧
      recurringRegs (mediaCreate env).2 = [(cachesweepId, 0, minuteNs, 60)] := by
  obtain ⟨d, ia, ii, st, tok, sc, mc, mu, mg⟩ := env
  obtain ⟨hd, hia, hii, hst⟩ := h
  simp only at hd hia hii hst
  subst hd; subst hia; subst hii; subst hst
  by_cases h0 : op = CREATE_MEDIA <;> by_cases h1 : op = UPDATE_MEDIA <;>
    by_cases h2 : op = GET_MEDIA <;>
    simp_all [statusDoOperation, mediaCreate, mediaDoOperation, recurringRegs,
      CREATE_MEDIA, UPDATE_MEDIA, GET_MEDIA]

/-- C7, witnessed at the all-success environment with the create op. -/
theorem c7_cachesweep_registration_witness :
    recurringRegs (statusDoOperation okEnv).2 = [(cachesweepId, 0, minuteNs, 60)] ∧
      recurringRegs (mediaDoOperation okEnv 0).2 = [(cachesweepId, 0, minuteNs, 60)] ∧
      recurringRegs (mediaCreate okEnv).2 = [(cachesweepId, 0, minuteNs, 60)] :=
  c7_cachesweep_registration okEnv 0 (by decide)

/-- C10: for an op value outside the three declared media operations,
`mediaRequestHandler.DoOperation` returns a nil attachment and a non-nil
error — the `"invalid media operation"` error whenever the bootstrap
succeeded — and never invokes any processor operation. -/
theorem c10_invalid_media_operation (env : Env) (op : Int)
    (h0 : op ≠ CREATE_MEDIA) (h1 : op ≠ UPDATE_MEDIA) (h2 : op ≠ GET_MEDIA) :
    (mediaDoOperation env op).1.1 = none ∧
      (mediaDoOperation env op).1.2 ≠ none ∧
      (bootstrapOk env → (mediaDoOperation env op).1.2 = some HandlerErr.invalidMediaOperation) ∧
      processorCalls (mediaDoOperation env op).2 = [] := by
  obtain ⟨d, ia, ii, st, tok, sc, mc, mu, mg⟩ := env
  cases d <;> cases ia <;> cases ii <;> cases st <;>
    simp_all [mediaDoOperation, bootstrapOk, processorCalls,
      CREATE_MEDIA, UPDATE_MEDIA, GET_MEDIA]

/-- C10, witnessed at op = 5 in the all-success environment. -/
theorem c10_invalid_media_operation_witness :
    (mediaDoOperation okEnv 5).1.1 = none ∧
      (mediaDoOperation okEnv 5).1.2 ≠ none ∧
      (bootstrapOk okEnv → (mediaDoOperation okEnv 5).1.2 =
        some HandlerErr.invalidMediaOperation) ∧
      processorCalls (mediaDoOperation okEnv 5).2 = [] :=
  c10_invalid_media_operation okEnv 5 (by decide) (by decide) (by decide)

/-!
Int64 wire-format lemmas.
-/

lemma leBytes_length (k u : Nat) : (leBytes k u).length = k := by
  induction k generalizing u with
  | zero => rfl
  | succ k ih => simp [leBytes, ih]

lemma encInt64_length (n : Int) : (encInt64 n).length = 8 := leBytes_length 8 _

lemma leVal_leBytes (k u : Nat) : leVal (leBytes k u) = u % 2 ^ (8 * k) := by
  induction k generalizing u with
  | zero => simp [leBytes, leVal, Nat.mod_one]
  | succ k ih =>
    have h : 2 ^ (8 * (k + 1)) = 256 * 2 ^ (8 * k) := by ring
    rw [leBytes, leVal, ih, h, Nat.mod_mul]

lemma int64Wrap_ofNat (n : Nat) (h : n < 2 ^ 64) : int64Wrap (n : Int) = n := by
  unfold int64Wrap
  rw [Int.emod_eq_of_lt (by positivity) (by exact_mod_cast h)]
  exact Int.toNat_natCast n

lemma decInt64_encInt64_ofNat (n : Nat) (h : n < 2 ^ 63) :
    decInt64 (encInt64 (n : Int)) = n := by
  have h64 : n < 2 ^ 64 := lt_of_lt_of_le h (by norm_num)
  unfold decInt64 encInt64
  rw [int64Wrap_ofNat n h64, leVal_leBytes]
  have hm : n % 2 ^ (8 * 8) = n := Nat.mod_eq_of_lt (by simpa using h64)
  rw [hm, if_pos h]

lemma decInt64_encInt64_neg_one : decInt64 (encInt64 (-1)) = -1 := by decide

/-!
Reader-composition lemmas: each decoder step applied to a buffer that
starts with the corresponding encoder output.
-/

lemma readInt64_append (n : Int) (rest : List Nat) :
    readInt64 (encInt64 n ++ rest) = .ok (decInt64 (encInt64 n), rest) := by
  unfold readInt64
  rw [if_neg]
  · rw [show (8 : Nat) = (encInt64 n).length from (encInt64_length n).symm,
      List.take_left, List.drop_left]
  · simp [encInt64_length]

lemma readN_exact (s rest : List Nat) (h : s ++ rest ≠ []) :
    readN (s.length : Int) (s ++ rest) = .ok (s, rest) := by
  have hlen : s.length - (s ++ rest).length = 0 := by simp
  unfold readN readFromOrPad
  rw [if_neg (not_lt.mpr (Int.natCast_nonneg s.length))]
  rw [if_neg (by simpa [List.length_eq_zero] using h)]
  rw [Int.toNat_natCast, hlen]
  simp [List.take_left, List.drop_left]

lemma readString_append (s rest : List Nat) (h1 : s.length < 2 ^ 63)
    (h2 : s ++ rest ≠ []) :
    readString (writeString s ++ rest) = .ok (s, rest) := by
  unfold readString writeString
  rw [List.append_assoc, readInt64_append, decInt64_encInt64_ofNat s.length h1]
  simp [readN_exact s rest h2]

/-!
Header round-trip: `stringToHeader (headerToString h) = h` for headers
that a Go `textproto.MIMEHeader` built through `Add` can hold — distinct
canonical token keys, at least one value per key, no newline inside a
value.
-/

/-- Keys of a header, in iteration order. -/
def keysOf (h : MIMEHeader) : List (List Nat) := h.map Prod.fst

/-- A key as `textproto.MIMEHeader.Add` stores it: all bytes valid header
field bytes, and already in canonical case. -/
def wfKey (k : List Nat) : Prop :=
  k.all validHeaderFieldByte = true ∧ canonCase true k = k

instance (k : List Nat) : Decidable (wfKey k) := by
  unfold wfKey; infer_instance

/-- A header value a Go map built through `Add` can hold: distinct
well-formed keys, a nonempty value list per key, and no newline byte in
any value. -/
def wfHeader (h : MIMEHeader) : Prop :=
  (keysOf h).Nodup ∧ ∀ kv ∈ h, wfKey kv.1 ∧ kv.2 ≠ [] ∧ ∀ v ∈ kv.2, 10 ∉ v

instance (h : MIMEHeader) : Decidable (wfHeader h) := by
  unfold wfHeader; infer_instance

lemma colon_not_mem {k : List Nat} (hk : k.all validHeaderFieldByte = true) :
    58 ∉ k := by
  intro hm
  exact absurd (List.all_eq_true.mp hk _ hm) (by decide)

lemma newline_not_mem {k : List Nat} (hk : k.all validHeaderFieldByte = true) :
    10 ∉ k := by
  intro hm
  exact absurd (List.all_eq_true.mp hk _ hm) (by decide)

lemma canonicalKey_of_wfKey {k : List Nat} (h : wfKey k) :
    CanonicalMIMEHeaderKey k = k := by
  unfold CanonicalMIMEHeaderKey
  rw [if_pos h.1, h.2]

lemma not_mem_keysOf {acc : MIMEHeader} {k : List Nat} (hk : k ∉ keysOf acc) :
    ∀ kv ∈ acc, kv.1 ≠ k := by
  intro kv hkv he
  exact hk (he ▸ List.mem_map_of_mem Prod.fst hkv)

lemma findSep_line {k : List Nat} (v : List Nat) (h58 : 58 ∉ k) :
    findSep (k ++ 58 :: 32 :: v) = some (k, v) := by
  induction k with
  | nil => simp [findSep]
  | cons c k ih =>
    have hc : c ≠ 58 := fun hc => h58 (by simp [hc])
    have hk : 58 ∉ k := fun hm => h58 (List.mem_cons_of_mem c hm)
    simp only [List.cons_append, findSep]
    rw [if_neg (by simp [hc]), List.append_eq, ih hk]

lemma splitNl_line (x rest : List Nat) (hx : 10 ∉ x) :
    splitNl (x ++ 10 :: rest) = x :: splitNl rest := by
  induction x with
  | nil => simp [splitNl]
  | cons c x ih =>
    have hc : c ≠ 10 := fun hc => hx (by simp [hc])
    have hx2 : 10 ∉ x := fun hm => hx (List.mem_cons_of_mem c hm)
    simp only [List.cons_append, splitNl]
    rw [if_neg hc, List.append_eq, ih hx2]

/-- The lines of one header entry, without their newline terminators. -/
def entryLines (k : List Nat) (vs : List (List Nat)) : List (List Nat) :=
  vs.map (fun v => k ++ 58 :: 32 :: v)

/-- All lines of a header dump, without their newline terminators. -/
def headerLines (h : MIMEHeader) : List (List Nat) :=
  (h.map (fun kv => entryLines kv.1 kv.2)).flatten

lemma splitNl_entry (k : List Nat) (vs : List (List Nat)) (s : List Nat)
    (hk : 10 ∉ k) (hvs : ∀ v ∈ vs, 10 ∉ v) :
    splitNl ((vs.map (fun v => k ++ 58 :: 32 :: (v ++ [10]))).flatten ++ s) =
      entryLines k vs ++ splitNl s := by
  induction vs with
  | nil => simp [entryLines]
  | cons v vs ih =>
    have hv : 10 ∉ v := hvs v (by simp)
    have hvs2 : ∀ w ∈ vs, 10 ∉ w := fun w hw => hvs w (by simp [hw])
    have hline : (10 : Nat) ∉ k ++ 58 :: 32 :: v := by simp [hk, hv]
    calc splitNl (((v :: vs).map (fun w => k ++ 58 :: 32 :: (w ++ [10]))).flatten ++ s)
        = splitNl ((k ++ 58 :: 32 :: v) ++
            10 :: ((vs.map (fun w => k ++ 58 :: 32 :: (w ++ [10]))).flatten ++ s)) := by
          simp
      _ = (k ++ 58 :: 32 :: v) ::
            splitNl ((vs.map (fun w => k ++ 58 :: 32 :: (w ++ [10]))).flatten ++ s) :=
          splitNl_line _ _ hline
      _ = (k ++ 58 :: 32 :: v) :: (entryLines k vs ++ splitNl s) := by rw [ih hvs2]
      _ = entryLines k (v :: vs) ++ splitNl s := by simp [entryLines]

lemma splitNl_headerToString (h : MIMEHeader) (s : List Nat)
    (hwf : ∀ kv ∈ h, 10 ∉ kv.1 ∧ ∀ v ∈ kv.2, 10 ∉ v) :
    splitNl (headerToString h ++ s) = headerLines h ++ splitNl s := by
  induction h with
  | nil => simp [headerToString, headerLines]
  | cons kv t ih =>
    obtain ⟨k, vs⟩ := kv
    have h1 := hwf (k, vs) (by simp)
    have h2 : ∀ kv ∈ t, 10 ∉ kv.1 ∧ ∀ v ∈ kv.2, 10 ∉ v :=
      fun kv hm => hwf kv (by simp [hm])
    calc splitNl (headerToString ((k, vs) :: t) ++ s)
        = splitNl ((vs.map (fun v => k ++ 58 :: 32 :: (v ++ [10]))).flatten ++
            (headerToString t ++ s)) := by
          simp [headerToString]
      _ = entryLines k vs ++ splitNl (headerToString t ++ s) :=
          splitNl_entry k vs _ h1.1 h1.2
      _ = entryLines k vs ++ (headerLines t ++ splitNl s) := by rw [ih h2]
      _ = headerLines ((k, vs) :: t) ++ splitNl s := by simp [headerLines]

lemma Add_fresh (acc : MIMEHeader) (k v : List Nat)
    (hc : CanonicalMIMEHeaderKey k = k) (hk : k ∉ keysOf acc) :
    MIMEHeader.Add acc k v = acc ++ [(k, [v])] := by
  have hany : (acc.any fun kv => decide (kv.1 = k)) = false := by
    simp only [List.any_eq_false, decide_eq_true_eq]
    exact not_mem_keysOf hk
  unfold MIMEHeader.Add
  simp [hc, hany]

lemma Add_last (acc : MIMEHeader) (k : List Nat) (u : List (List Nat)) (v : List Nat)
    (hc : CanonicalMIMEHeaderKey k = k) (hk : k ∉ keysOf acc) :
    MIMEHeader.Add (acc ++ [(k, u)]) k v = acc ++ [(k, u ++ [v])] := by
  have hany : ((acc ++ [(k, u)]).any fun kv => decide (kv.1 = k)) = true := by
    simp [List.any_eq_true]
  have hmap : acc.map (fun kv => if kv.1 = k then (kv.1, kv.2 ++ [v]) else kv) = acc := by
    have hcong : ∀ kv ∈ acc,
        (if kv.1 = k then (kv.1, kv.2 ++ [v]) else kv) = id kv := by
      intro kv hkv
      rw [if_neg (not_mem_keysOf hk kv hkv)]
      rfl
    rw [List.map_congr_left hcong, List.map_id]
  unfold MIMEHeader.Add
  simp only [hc, hany, if_true, List.map_append, hmap]
  simp

lemma foldl_entryLines (k : List Nat) (vs : List (List Nat)) (acc : MIMEHeader)
    (u : List (List Nat)) (hc : CanonicalMIMEHeaderKey k = k) (h58 : 58 ∉ k)
    (hk : k ∉ keysOf acc) :
    List.foldl lineStep (acc ++ [(k, u)]) (entryLines k vs) = acc ++ [(k, u ++ vs)] := by
  induction vs generalizing u with
  | nil => simp [entryLines]
  | cons v vs ih =>
    have hne : k ++ 58 :: 32 :: v ≠ [] := by simp
    have hstep : lineStep (acc ++ [(k, u)]) (k ++ 58 :: 32 :: v) = acc ++ [(k, u ++ [v])] := by
      unfold lineStep
      rw [if_neg hne, findSep_line v h58]
      exact Add_last acc k u v hc hk
    rw [show entryLines k (v :: vs) = (k ++ 58 :: 32 :: v) :: entryLines k vs from rfl,
      List.foldl_cons, hstep, ih (u ++ [v])]
    simp

lemma foldl_headerLines (h : MIMEHeader) :
    ∀ acc, wfHeader h → (∀ kv ∈ h, kv.1 ∉ keysOf acc) →
      List.foldl lineStep acc (headerLines h) = acc ++ h := by
  induction h with
  | nil => intro acc _ _; simp [headerLines]
  | cons kv t ih =>
    intro acc hwf hdisj
    obtain ⟨k, vs⟩ := kv
    obtain ⟨hnd, hall⟩ := hwf
    obtain ⟨hkey, hvs_ne, hvnl⟩ := hall (k, vs) (by simp)
    have hknot : k ∉ keysOf acc := hdisj (k, vs) (by simp)
    have hc : CanonicalMIMEHeaderKey k = k := canonicalKey_of_wfKey hkey
    have h58 : 58 ∉ k := colon_not_mem hkey.1
    have hnd2 : k ∉ keysOf t ∧ (keysOf t).Nodup := by
      have : keysOf ((k, vs) :: t) = k :: keysOf t := rfl
      rw [this] at hnd
      exact List.nodup_cons.mp hnd
    obtain ⟨v, vs', rfl⟩ : ∃ v vs', vs = v :: vs' := by
      cases vs with
      | nil => exact absurd rfl hvs_ne
      | cons v vs' => exact ⟨v, vs', rfl⟩
    have hstep1 : lineStep acc (k ++ 58 :: 32 :: v) = acc ++ [(k, [v])] := by
      unfold lineStep
      rw [if_neg (by simp), findSep_line v h58]
      exact Add_fresh acc k v hc hknot
    have hwf_t : wfHeader t := ⟨hnd2.2, fun kv hm => hall kv (by simp [hm])⟩
    have hdisj_t : ∀ kv ∈ t, kv.1 ∉ keysOf (acc ++ [(k, v :: vs')]) := by
      intro kv hm
      have h1 : kv.1 ∉ keysOf acc := hdisj kv (by simp [hm])
      have h2 : kv.1 ≠ k :=
        fun he => hnd2.1 (he ▸ List.mem_map_of_mem Prod.fst hm)
      have hkeys : keysOf (acc ++ [(k, v :: vs')]) = keysOf acc ++ [k] := by
        simp [keysOf]
      rw [hkeys]
      simp [List.mem_append, h1, h2]
    rw [show headerLines ((k, v :: vs') :: t) =
        entryLines k (v :: vs') ++ headerLines t from by simp [headerLines],
      List.foldl_append,
      show entryLines k (v :: vs') = (k ++ 58 :: 32 :: v) :: entryLines k vs' from rfl,
      List.foldl_cons, hstep1, foldl_entryLines k vs' acc [v] hc h58 hknot,
      List.singleton_append, ih (acc ++ [(k, v :: vs')]) hwf_t hdisj_t]
    simp

lemma stringToHeader_headerToString (h : MIMEHeader) (hwf : wfHeader h) :
    stringToHeader (headerToString h) = h := by
  unfold stringToHeader
  have h10 : ∀ kv ∈ h, 10 ∉ kv.1 ∧ ∀ v ∈ kv.2, 10 ∉ v := by
    intro kv hm
    obtain ⟨hkey, _, hv⟩ := hwf.2 kv hm
    exact ⟨newline_not_mem hkey.1, hv⟩
  have hsplit : splitNl (headerToString h) = headerLines h ++ [[]] := by
    have := splitNl_headerToString h [] h10
    simpa [splitNl] using this
  rw [hsplit, List.foldl_append, foldl_headerLines h [] hwf (by simp [keysOf])]
  simp [lineStep]

/-!
Multipart and full-envelope round trip.
-/

lemma encInt64_ne_nil (n : Int) : encInt64 n ≠ [] := by
  intro h
  have := encInt64_length n
  rw [h] at this
  simp at this

lemma readN_all (s : List Nat) (h : s ≠ []) : readN (s.length : Int) s = .ok (s, []) := by
  have := readN_exact s [] (by simpa using h)
  simpa using this

lemma readString_all (s : List Nat) (h1 : s.length < 2 ^ 63) (h2 : s ≠ []) :
    readString (writeString s) = .ok (s, []) := by
  have := readString_append s [] h1 (by simpa using h2)
  simpa using this

lemma headerToString_ne_nil (h : MIMEHeader) (hwf : wfHeader h) (hne : h ≠ []) :
    headerToString h ≠ [] := by
  cases h with
  | nil => exact absurd rfl hne
  | cons kv t =>
    obtain ⟨k, vs⟩ := kv
    obtain ⟨_, hvs_ne, _⟩ := hwf.2 (k, vs) (by simp)
    obtain ⟨v, vs', rfl⟩ : ∃ v vs', vs = v :: vs' := by
      cases vs with
      | nil => exact absurd rfl hvs_ne
      | cons v vs' => exact ⟨v, vs', rfl⟩
    simp [headerToString]

lemma UnmarshalBinaryMultipart_roundtrip (fh : FileHeader)
    (hwf : wfHeader fh.Header) (hne : fh.Header ≠ [])
    (hfn : fh.Filename.length < 2 ^ 63)
    (hhs : (headerToString fh.Header).length < 2 ^ 63) :
    UnmarshalBinaryMultipart (MarshalBinaryMultipart fh) =
      .ok ⟨fh.Filename, fh.Header, 0, []⟩ := by
  have hsne : headerToString fh.Header ≠ [] := headerToString_ne_nil _ hwf hne
  have e1 : MarshalBinaryMultipart fh =
      encInt64 (fh.Filename.length : Int) ++
        (fh.Filename ++
          (encInt64 ((headerToString fh.Header).length : Int) ++
            headerToString fh.Header)) := by
    simp [MarshalBinaryMultipart, List.append_assoc]
  have hne2 : fh.Filename ++
      (encInt64 ((headerToString fh.Header).length : Int) ++
        headerToString fh.Header) ≠ [] := by
    simp [encInt64_ne_nil]
  rw [e1]
  unfold UnmarshalBinaryMultipart
  rw [readInt64_append, decInt64_encInt64_ofNat _ hfn]
  simp only [readN_exact fh.Filename _ hne2, readInt64_append,
    decInt64_encInt64_ofNat (headerToString fh.Header).length hhs,
    readN_all (headerToString fh.Header) hsne,
    stringToHeader_headerToString fh.Header hwf]

/-- C1 counterexample: the envelope with no file, empty description and
empty focus — valid by the claim's own enumeration — does not survive the
round trip: decoding the encoding fails with `io.EOF`, because the final
`buf.Read` of the zero-length focus hits an exhausted `bytes.Reader`. -/
theorem c1_counterexample :
    AttachmentRequest.UnmarshalBinary
        (AttachmentRequest.MarshalBinary ⟨none, [], []⟩) = .error CodecErr.eof ∧
      AttachmentRequest.UnmarshalBinary
        (AttachmentRequest.MarshalBinary ⟨none, [], []⟩) ≠ .ok ⟨none, [], []⟩ := by
  decide

/-- C1 amended: the round trip reproduces the envelope's `Description`,
`Focus`, and the `Filename` and `Header` of its `File` (the decoded
`FileHeader` carries the zero `Size` and empty content of
`multipart.FileHeader{}`), provided the focus is nonempty and, when a
file is present, its MIME header set is nonempty and well formed in the
sense a Go `textproto.MIMEHeader` built by `Add` guarantees: distinct
canonical token keys, at least one value per key, no newline byte inside
a value. Field lengths are below 2 ^ 63 as any Go slice length is. -/
theorem c1_roundtrip_amended (ar : AttachmentRequest)
    (hfoc : ar.Focus ≠ [])
    (hd : ar.Description.length < 2 ^ 63) (hf : ar.Focus.length < 2 ^ 63)
    (hfile : ∀ fh, ar.File = some fh → wfHeader fh.Header ∧ fh.Header ≠ [] ∧
      fh.Filename.length < 2 ^ 63 ∧ (headerToString fh.Header).length < 2 ^ 63 ∧
      (MarshalBinaryMultipart fh).length < 2 ^ 63) :
    AttachmentRequest.UnmarshalBinary ar.MarshalBinary =
      .ok ⟨ar.File.map (fun fh => ⟨fh.Filename, fh.Header, 0, []⟩),
        ar.Description, ar.Focus⟩ := by
  obtain ⟨file, d, f⟩ := ar
  simp only at hfoc hd hf hfile
  have hne3 : d ++ writeString f ≠ [] := by
    simp [writeString, encInt64_ne_nil]
  cases file with
  | none =>
    have e1 : AttachmentRequest.MarshalBinary ⟨none, d, f⟩ =
        encInt64 (-1) ++ (writeString d ++ writeString f) := by
      simp [AttachmentRequest.MarshalBinary, List.append_assoc]
    unfold AttachmentRequest.UnmarshalBinary
    rw [e1, readInt64_append, decInt64_encInt64_neg_one]
    simp only [readString_append d (writeString f) hd hne3,
      readString_all f hf hfoc]
    simp
  | some fh =>
    obtain ⟨hwf, hne, hfn, hhs, hfd⟩ := hfile fh rfl
    have hmp := UnmarshalBinaryMultipart_roundtrip fh hwf hne hfn hhs
    have e1 : AttachmentRequest.MarshalBinary ⟨some fh, d, f⟩ =
        encInt64 ((MarshalBinaryMultipart fh).length : Int) ++
          (MarshalBinaryMultipart fh ++ (writeString d ++ writeString f)) := by
      simp [AttachmentRequest.MarshalBinary, List.append_assoc]
    have hne2 : MarshalBinaryMultipart fh ++ (writeString d ++ writeString f) ≠ [] := by
      simp [writeString, encInt64_ne_nil]
    have hitne : ((MarshalBinaryMultipart fh).length : Int) ≠ -1 := by omega
    unfold AttachmentRequest.UnmarshalBinary
    rw [e1, readInt64_append, decInt64_encInt64_ofNat _ hfd]
    simp only [hitne, if_true, ne_eq, not_false_eq_true,
      readN_exact (MarshalBinaryMultipart fh) _ hne2, hmp,
      readString_append d (writeString f) hd hne3,
      readString_all f hf hfoc]
    simp

/-- Concrete envelope witnessing the amended round trip: a file named
`"f"` with header `A: x`, nonzero size and content, description `"d"`,
focus `"p"`. -/
def c1Ar : AttachmentRequest :=
  ⟨some ⟨strBytes "f", [(strBytes "A", [strBytes "x"])], 3, [1, 2]⟩,
    strBytes "d", strBytes "p"⟩

/-- C1 amended, witnessed at the concrete envelope `c1Ar`. -/
theorem c1_roundtrip_amended_witness :
    AttachmentRequest.UnmarshalBinary c1Ar.MarshalBinary =
      .ok ⟨c1Ar.File.map (fun fh => ⟨fh.Filename, fh.Header, 0, []⟩),
        c1Ar.Description, c1Ar.Focus⟩ :=
  c1_roundtrip_amended c1Ar (by decide) (by decide) (by decide)
    (fun fh hfh => by injection hfh with h; subst h; decide)

/-- Buffer whose focus length prefix declares 5 bytes while only the two
bytes `0x61 0x62` remain. -/
def c2Buffer : List Nat := encInt64 (-1) ++ encInt64 0 ++ encInt64 5 ++ [97, 98]

/-- C2: decoding `c2Buffer`, whose declared focus length exceeds the
remaining bytes, does not fail — `bytes.Reader.Read` reports no error on
a short read, so `UnmarshalBinary` returns success with the focus
silently zero-padded to the declared five bytes, contradicting the
required truncation rejection. -/
theorem c2_truncation_silent_success :
    AttachmentRequest.UnmarshalBinary c2Buffer =
      .ok ⟨none, [], [97, 98, 0, 0, 0]⟩ := by decide

/-- File header with raw content bytes `[1, 2, 3]`. -/
def c5fh : FileHeader := ⟨strBytes "f", [(strBytes "A", [strBytes "x"])], 3, [1, 2, 3]⟩

/-- C5 counterexample: the wire form of a file sub-record is independent
of the file's raw content bytes, and decoding it yields a `FileHeader`
with empty content — the encoded form cannot reproduce the file's bytes,
which the collaborating processor re-reads from the shared `/tmp` path
instead. -/
theorem c5_counterexample :
    MarshalBinaryMultipart c5fh =
        MarshalBinaryMultipart ⟨c5fh.Filename, c5fh.Header, 0, []⟩ ∧
      UnmarshalBinaryMultipart (MarshalBinaryMultipart c5fh) =
        .ok ⟨strBytes "f", [(strBytes "A", [strBytes "x"])], 0, []⟩ ∧
      (⟨strBytes "f", [(strBytes "A", [strBytes "x"])], 0, []⟩ : FileHeader).content ≠
        c5fh.content := by decide

/-- C5 amended: the encoded wire form of the file sub-record contains
only the filename and the flattened MIME header set — it is the same for
any `Size` and any raw content bytes, which therefore do not cross the
boundary in the envelope. -/
theorem c5_wire_form_amended (fh : FileHeader) (sz : Int) (c : List Nat) :
    MarshalBinaryMultipart ⟨fh.Filename, fh.Header, sz, c⟩ =
      MarshalBinaryMultipart fh := rfl

/-!
Sentinel and length-prefix structure (C8), and encoding determinism (C9).
-/

/-- First int64 the encoder writes: -1 for a nil `File`, else the byte
length of the encoded file sub-record. -/
def fileLenField (ar : AttachmentRequest) : Int :=
  match ar.File with
  | some fh => ((MarshalBinaryMultipart fh).length : Int)
  | none => -1

lemma unmarshal_file_none_iff (data : List Nat) (out : AttachmentRequest)
    (hdec : AttachmentRequest.UnmarshalBinary data = .ok out) :
    out.File = none ↔ decInt64 (data.take 8) = -1 := by
  unfold AttachmentRequest.UnmarshalBinary at hdec
  cases hread : readInt64 data with
  | error e => rw [hread] at hdec; exact absurd hdec (by simp)
  | ok p =>
    obtain ⟨fLen, r1⟩ := p
    rw [hread] at hdec
    dsimp only at hdec
    have hfl : fLen = decInt64 (data.take 8) := by
      unfold readInt64 at hread
      by_cases hl : data.length < 8
      · rw [if_pos hl] at hread; exact absurd hread (by simp)
      · rw [if_neg hl] at hread
        simp only [Except.ok.injEq, Prod.mk.injEq] at hread
        exact hread.1.symm
    rw [← hfl]
    by_cases hm1 : fLen = -1
    · subst hm1
      rw [if_neg (by simp)] at hdec
      cases h1 : readString r1 with
      | error e => rw [h1] at hdec; exact absurd hdec (by simp)
      | ok p1 =>
        obtain ⟨d, r3⟩ := p1
        rw [h1] at hdec
        dsimp only at hdec
        cases h2 : readString r3 with
        | error e => rw [h2] at hdec; exact absurd hdec (by simp)
        | ok p2 =>
          obtain ⟨f2, r4⟩ := p2
          rw [h2] at hdec
          dsimp only at hdec
          simp only [Except.ok.injEq] at hdec
          rw [← hdec]
          simp
    · rw [if_pos hm1] at hdec
      cases h1 : readN fLen r1 with
      | error e => rw [h1] at hdec; exact absurd hdec (by simp)
      | ok p1 =>
        obtain ⟨fd, r2⟩ := p1
        rw [h1] at hdec
        dsimp only at hdec
        cases h2 : UnmarshalBinaryMultipart fd with
        | error e => rw [h2] at hdec; exact absurd hdec (by simp)
        | ok file =>
          rw [h2] at hdec
          dsimp only at hdec
          cases h3 : readString r2 with
          | error e => rw [h3] at hdec; exact absurd hdec (by simp)
          | ok p3 =>
            obtain ⟨d, r3⟩ := p3
            rw [h3] at hdec
            dsimp only at hdec
            cases h4 : readString r3 with
            | error e => rw [h4] at hdec; exact absurd hdec (by simp)
            | ok p4 =>
              obtain ⟨f2, r4⟩ := p4
              rw [h4] at hdec
              dsimp only at hdec
              simp only [Except.ok.injEq] at hdec
              rw [← hdec]
              simp [hm1]

/-- C8: the encoder writes -1 as the first int64 exactly when `File` is
nil and otherwise the non-negative byte length of the file sub-record;
every other length prefix it writes is the non-negative byte count of the
payload immediately following it (the wire form decomposes into
length-prefixed segments); and a successful decode yields a nil `File`
exactly when the first int64 of the buffer is -1. -/
theorem c8_sentinel (ar : AttachmentRequest) (data : List Nat)
    (out : AttachmentRequest)
    (hdec : AttachmentRequest.UnmarshalBinary data = .ok out) :
    ar.MarshalBinary =
        encInt64 (fileLenField ar) ++
          (match ar.File with
           | some fh => MarshalBinaryMultipart fh
           | none => []) ++
          (encInt64 (ar.Description.length : Int) ++ ar.Description) ++
          (encInt64 (ar.Focus.length : Int) ++ ar.Focus) ∧
      (fileLenField ar = -1 ↔ ar.File = none) ∧
      (∀ fh, ar.File = some fh →
        fileLenField ar = ((MarshalBinaryMultipart fh).length : Int) ∧
          0 ≤ fileLenField ar) ∧
      (out.File = none ↔ decInt64 (data.take 8) = -1) := by
  refine ⟨?_, ?_, ?_, unmarshal_file_none_iff data out hdec⟩
  · cases h : ar.File with
    | none => simp [AttachmentRequest.MarshalBinary, fileLenField, writeString, h]
    | some fh => simp [AttachmentRequest.MarshalBinary, fileLenField, writeString, h]
  · cases h : ar.File with
    | none => simp [fileLenField, h]
    | some fh =>
      simp only [fileLenField, h]
      constructor
      · intro hc
        exact absurd hc (by omega)
      · intro hc
        exact absurd hc (by simp)
  · intro fh hfh
    constructor
    · simp [fileLenField, hfh]
    · simp only [fileLenField, hfh]
      omega

/-- Witness envelope and buffer for the sentinel theorem. -/
def c8Ar : AttachmentRequest := ⟨none, [], [97]⟩

/-- C8, witnessed at `c8Ar` and the buffer it encodes to. -/
theorem c8_sentinel_witness :
    AttachmentRequest.UnmarshalBinary c8Ar.MarshalBinary = .ok c8Ar ∧
      (c8Ar.MarshalBinary =
          encInt64 (fileLenField c8Ar) ++
            (match c8Ar.File with
             | some fh => MarshalBinaryMultipart fh
             | none => []) ++
            (encInt64 (c8Ar.Description.length : Int) ++ c8Ar.Description) ++
            (encInt64 (c8Ar.Focus.length : Int) ++ c8Ar.Focus) ∧
        (fileLenField c8Ar = -1 ↔ c8Ar.File = none) ∧
        (∀ fh, c8Ar.File = some fh →
          fileLenField c8Ar = ((MarshalBinaryMultipart fh).length : Int) ∧
            0 ≤ fileLenField c8Ar) ∧
        (c8Ar.File = none ↔ decInt64 (c8Ar.MarshalBinary.take 8) = -1)) :=
  ⟨by decide, c8_sentinel c8Ar c8Ar.MarshalBinary c8Ar (by decide)⟩

/-- Header `{A: [x], B: [y]}` in one iteration order. -/
def c9h1 : MIMEHeader := [(strBytes "A", [strBytes "x"]), (strBytes "B", [strBytes "y"])]

/-- The same header in the other iteration order. -/
def c9h2 : MIMEHeader := [(strBytes "B", [strBytes "y"]), (strBytes "A", [strBytes "x"])]

/-- C9 counterexample: `c9h1` and `c9h2` are the same Go map (a
permutation of the same key/value associations), yet `MarshalBinary`
produces different byte buffers for the two iteration orders —
`headerToString` ranges over a Go map, whose iteration order is not
fixed, so the wire form is not a deterministic function of the
envelope's contents once the header has two keys. -/
theorem c9_counterexample :
    List.Perm c9h1 c9h2 ∧
      AttachmentRequest.MarshalBinary ⟨some ⟨[], c9h1, 0, []⟩, [], []⟩ ≠
        AttachmentRequest.MarshalBinary ⟨some ⟨[], c9h2, 0, []⟩, [], []⟩ :=
  ⟨List.Perm.swap _ _ [], by decide⟩

/-- C9 amended: the encoder is deterministic in everything except the
header-dump order: for envelopes whose MIME header set has at most one
key, any two iteration orders of the same header map (permutations of
the same associations) produce identical byte buffers. -/
theorem c9_determinism_amended (fh1 fh2 : FileHeader) (d f : List Nat)
    (hfn : fh1.Filename = fh2.Filename)
    (hperm : List.Perm fh1.Header fh2.Header)
    (hlen : fh1.Header.length ≤ 1) :
    AttachmentRequest.MarshalBinary ⟨some fh1, d, f⟩ =
      AttachmentRequest.MarshalBinary ⟨some fh2, d, f⟩ := by
  have hhd : fh1.Header = fh2.Header := by
    rcases h1 : fh1.Header with _ | ⟨kv, _ | ⟨kv2, t⟩⟩
    · rw [h1] at hperm
      exact List.Perm.nil_eq hperm
    · rw [h1] at hperm
      exact (List.perm_singleton.mp hperm.symm).symm
    · rw [h1] at hlen
      simp at hlen
  simp [AttachmentRequest.MarshalBinary, MarshalBinaryMultipart, hfn, hhd]

/-- C9 amended, witnessed at a one-key header (the permutation is the
identity). -/
theorem c9_determinism_amended_witness :
    AttachmentRequest.MarshalBinary
        ⟨some ⟨[], [(strBytes "A", [strBytes "x"])], 0, []⟩, [], []⟩ =
      AttachmentRequest.MarshalBinary
        ⟨some ⟨[], [(strBytes "A", [strBytes "x"])], 0, []⟩, [], []⟩ :=
  c9_determinism_amended _ _ [] [] rfl (List.Perm.refl _) (by decide)

/-- C3 amended, witnessed at the environment `c3Env` with the create op. -/
theorem c3_error_surfacing_amended_witness :
    ((statusDoOperation c3Env).1.2 = none ↔ bootstrapOk c3Env) ∧
      ((mediaCreate c3Env).1.2 = none ↔ bootstrapOk c3Env) ∧
      ((mediaDoOperation c3Env 0).1.2 = none ↔
        (bootstrapOk c3Env ∧ ((0 : Int) = CREATE_MEDIA ∨ (0 : Int) = UPDATE_MEDIA ∨
          (0 : Int) = GET_MEDIA))) ∧
      (bootstrapOk c3Env → (statusDoOperation c3Env).1 = (c3Env.statusCreateResult.1, none)) ∧
      (bootstrapOk c3Env → (mediaCreate c3Env).1 = (c3Env.mediaCreateResult.1, none)) :=
  c3_error_surfacing_amended c3Env 0

/-- C4 amended, witnessed at the environment `c4Env` with the create op. -/
theorem c4_lock_names_amended_witness :
    storageLocks (statusDoOperation c4Env).2 =
        (if c4Env.dbOpenErr = none ∧ c4Env.instanceAccountErr = none ∧
            c4Env.instanceInstanceErr = none
          then [c4Env.token ++ lockSuffix] else []) ∧
      storageLocks (mediaDoOperation c4Env 0).2 =
        (if c4Env.dbOpenErr = none ∧ c4Env.instanceAccountErr = none ∧
            c4Env.instanceInstanceErr = none
          then [c4Env.token ++ lockSuffix] else []) ∧
      storageLocks (mediaCreate c4Env).2 =
        (if c4Env.dbOpenErr = none ∧ c4Env.instanceAccountErr = none ∧
            c4Env.instanceInstanceErr = none
          then [helloLock] else []) :=
  c4_lock_names_amended c4Env 0
